import Mathlib

/-!
Shallow embedding of the flow-agent repository (src/agent/agent.py and
src/agent/flask_app.py) and proofs about its tool-invocation loop, its two
tool implementations, its response-text extractor and its HTTP handler.
-/

namespace FlowAgent

/-! ## String primitives

Structural char-level models of the Python string operations the code uses:
str.strip, single-character str.split, and integer literal parsing.  They
are defined by structural recursion so that concrete instances evaluate. -/

/-- Model of Python str.strip: drop leading and trailing whitespace. -/
def strip (s : String) : String :=
  ⟨((s.toList.dropWhile Char.isWhitespace).reverse.dropWhile Char.isWhitespace).reverse⟩

/-- Split a character list at a separator, keeping empty segments. -/
def splitChars (sep : Char) : List Char → List Char → List String
  | [], acc => [⟨acc.reverse⟩]
  | c :: cs, acc =>
    if c = sep then ⟨acc.reverse⟩ :: splitChars sep cs [] else splitChars sep cs (c :: acc)

/-- Model of str.split on a one-character separator. -/
def splitOnChar (sep : Char) (s : String) : List String :=
  splitChars sep s.toList []

/-- Decimal value of a digit list. -/
def digitsVal (cs : List Char) : Nat :=
  cs.foldl (fun acc c => acc * 10 + (c.toNat - Char.toNat (Char.ofNat 48))) 0

/-- Model of integer literal parsing: an optional sign then digits. -/
def toIntModel? (s : String) : Option Int :=
  match s.toList with
  | [] => none
  | c :: rest =>
    if c = Char.ofNat 45 then
      if rest ≠ [] ∧ rest.all Char.isDigit then some (-(digitsVal rest : Int)) else none
    else if c = Char.ofNat 43 then
      if rest ≠ [] ∧ rest.all Char.isDigit then some (digitsVal rest : Int) else none
    else
      if (c :: rest).all Char.isDigit then some (digitsVal (c :: rest) : Int) else none

/-! ## Tool-invocation loop (run_with_tools in agent.py, lines 108-139)

A model response is a list of output items; the loop filters the items whose
type tag equals "tool_call".  Tool execution is abstracted by a function
from tool name and arguments to an Except value: ok carries the serialized
result, error carries the exception message str(e).  The endpoint round-trip
submit_tool_outputs is abstracted by a function from the current response
and the batch of tool outputs to the next response. -/

/-- Output item of a model response, as the loop in agent.py sees it: a type
tag, a correlation id, a tool name and an argument mapping. -/
structure RItem where
  rtype : String
  id : String
  name : String
  arguments : List (String × String)
deriving DecidableEq

/-- Model response: an ordered list of output items. -/
structure Response where
  output : List RItem
deriving DecidableEq

/-- Payload of a tool output entry: json.dumps of the tool result on success,
or json.dumps of the structured error object on exception. -/
inductive Payload where
  | success (data : String)
  | error (message : String)
deriving DecidableEq

/-- Entry of the tool_outputs batch: correlation id plus payload. -/
structure ToolOutput where
  tool_call_id : String
  output : Payload
deriving DecidableEq

/-- Names registered in the CUSTOM_TOOLS mapping of agent.py. -/
def CUSTOM_TOOLS_names : List String := ["fetch_url", "analyze_csv"]

/-- Abstraction of executing a registered tool implementation: ok is the
serialized result, error is the message of the exception it raised. -/
abbrev ToolImpl := String → List (String × String) → Except String String

/-- Abstraction of client.responses.submit_tool_outputs: from the current
response and the submitted batch to the next response. -/
abbrev Endpoint := Response → List ToolOutput → Response

/-- Filter of the output items whose type tag is tool_call, as in line 117
of agent.py. -/
def toolCallsOf (resp : Response) : List RItem :=
  resp.output.filter (fun it => it.rtype = "tool_call")

/-- Inner for-loop of run_with_tools (agent.py lines 121-130): for each call
whose name is in CUSTOM_TOOLS, execute it and append one output entry, a
success payload normally and an error payload when the implementation
raises; calls whose name misses the registry append nothing. -/
def toolOutputsFor (impl : ToolImpl) (tool_calls : List RItem) : List ToolOutput :=
  tool_calls.flatMap fun call =>
    if call.name ∈ CUSTOM_TOOLS_names then
      match impl call.name call.arguments with
      | .ok result => [⟨call.id, .success result⟩]
      | .error e => [⟨call.id, .error e⟩]
    else []

/-- While-loop of run_with_tools (agent.py lines 116-139), with fuel to make
the recursion structural, instrumented with the list of batches submitted to
the endpoint: returns the final response and, in order, every tool_outputs
batch that was passed to submit_tool_outputs. -/
def run_with_tools_aux (submit : Endpoint) (impl : ToolImpl) :
    Nat → Response → Response × List (List ToolOutput)
  | 0, resp => (resp, [])
  | fuel + 1, resp =>
    let tool_calls := toolCallsOf resp
    if tool_calls.isEmpty then
      (resp, [])
    else
      let touts := toolOutputsFor impl tool_calls
      if touts.isEmpty then
        (resp, [])
      else
        let next := run_with_tools_aux submit impl fuel (submit resp touts)
        (next.1, touts :: next.2)

/-- Final response of the loop, forgetting the instrumentation. -/
def run_with_tools (submit : Endpoint) (impl : ToolImpl) (fuel : Nat)
    (resp : Response) : Response :=
  (run_with_tools_aux submit impl fuel resp).1

/-! ## fetch_url (agent.py, lines 21-38)

The network fetch and the HTML parse are external effects; the embedding
starts from what the BeautifulSoup queries used by the code return: the
string of the first title element (none when there is no title element or
its string is None), the ordered stripped texts of all h1 elements, the
tables each given as its list of tr rows, every row the ordered list of the
stripped texts of its td and th cells, and the length of the fetched body. -/

/-- Parsed page as the BeautifulSoup queries of fetch_url observe it. -/
structure Soup where
  titleString : Option String
  h1Texts : List String
  tables : List (List (List String))
  htmlLen : Nat
deriving DecidableEq

/-- Result dictionary of fetch_url. -/
structure PageSummary where
  title : String
  h1s : List String
  table_preview : Option (List (List String))
  length : Nat
deriving DecidableEq

/-- Pure part of fetch_url after a successful GET: the title is the stripped
string of the first title element when that string is truthy and the empty
string otherwise; h1s are all h1 texts in order; when take_table is set and
a table exists, the preview is the first 6 tr rows of the first table. -/
def fetch_url (soup : Soup) (take_table : Bool) : PageSummary :=
  { title :=
      match soup.titleString with
      | some t => if t = "" then "" else strip t
      | none => ""
    h1s := soup.h1Texts
    table_preview :=
      if take_table then
        soup.tables.head?.map (fun table => table.take 6)
      else none
    length := soup.htmlLen }

/-! ## analyze_csv (agent.py, lines 40-56)

pandas objects are modelled by a DataFrame of named columns and rows of
optional cells (none is a missing value).  read_csv is modelled for plain
comma-separated input with a header row; reading from a path goes through an
abstract file system mapping paths to contents. -/

/-- Cell of a data frame; none models a missing value. -/
abbrev Cell := Option String

/-- Tabular data with a header row already consumed into column names. -/
structure DataFrame where
  columns : List String
  rows : List (List Cell)
deriving DecidableEq

/-- The double quote character. -/
def quoteChar : Char := Char.ofNat 34

/-- The comma separator. -/
def commaChar : Char := Char.ofNat 44

/-- The record separator. -/
def nlChar : Char := Char.ofNat 10

/-- CSV tokenizer modelling the pandas reader: fields are separated by
commas, records by newlines; a double quote opens a quoted section in which
separators and newlines are literal and a doubled quote is an escaped
quote.  Arguments: remaining input, the state (0 plain, 1 inside quotes,
2 right after a quote inside quotes), the current field reversed, the
fields of the current record reversed.  One character is consumed per step,
so the recursion is structural. -/
def csvRecords : List Char → Nat → List Char → List String → List (List String)
  | [], _, field, row => [((⟨field.reverse⟩ : String) :: row).reverse]
  | c :: rest, 1, field, row =>
    if c = quoteChar then csvRecords rest 2 field row
    else csvRecords rest 1 (c :: field) row
  | c :: rest, 2, field, row =>
    if c = quoteChar then csvRecords rest 1 (quoteChar :: field) row
    else if c = commaChar then csvRecords rest 0 [] ((⟨field.reverse⟩ : String) :: row)
    else if c = nlChar then
      ((⟨field.reverse⟩ : String) :: row).reverse :: csvRecords rest 0 [] []
    else csvRecords rest 0 (c :: field) row
  | c :: rest, _, field, row =>
    if c = quoteChar then csvRecords rest 1 field row
    else if c = commaChar then csvRecords rest 0 [] ((⟨field.reverse⟩ : String) :: row)
    else if c = nlChar then
      ((⟨field.reverse⟩ : String) :: row).reverse :: csvRecords rest 0 [] []
    else csvRecords rest 0 (c :: field) row

/-- Records of a CSV text with blank lines skipped, as the pandas reader
does by default. -/
def csvRecordsOf (s : String) : List (List String) :=
  (csvRecords s.toList 0 [] []).filter (fun r => r ≠ [""])

/-- Default missing-value sentinels of the pandas reader. -/
def NA_VALUES : List String :=
  ["", "#N/A", "#N/A N/A", "#NA", "-1.#IND", "-1.#QNAN", "-NaN", "-nan",
   "1.#IND", "1.#QNAN", "<NA>", "N/A", "NA", "NULL", "NaN", "None", "n/a",
   "nan", "null"]

/-- Model of pandas read_csv: tokenize the text into records honouring
quoting, skip blank lines, consume the first record as the header, and turn
every field matching a missing-value sentinel into a missing cell.  A text
with no records gives the empty frame (pandas raises there; no claim
exercises that case). -/
def read_csv (s : String) : DataFrame :=
  match csvRecordsOf s with
  | [] => ⟨[], []⟩
  | header :: rest =>
    ⟨header,
     rest.map (fun r => r.map (fun field =>
       if field ∈ NA_VALUES then none else some field))⟩

/-- Cells of column j of a data frame, a missing value where a row is short. -/
def colCells (df : DataFrame) (j : Nat) : List Cell :=
  df.rows.map (fun r => r.getD j none)

/-- Rational value of a numeric literal: an integer, or an integer part and
a digit fraction separated by one dot.  Models the numeric parsing pandas
applies when inferring column types. -/
def ratOfString? (s : String) : Option ℚ :=
  match toIntModel? s with
  | some n => some (n : ℚ)
  | none =>
    match splitOnChar (Char.ofNat 46) s with
    | [a, b] =>
      if b ≠ "" ∧ b.toList.all Char.isDigit then
        match toIntModel? a with
        | some n =>
          let frac : ℚ := ((digitsVal b.toList : Int) : ℚ) / ((10 : ℚ) ^ b.toList.length)
          some (if s.toList.head? = some (Char.ofNat 45) then (n : ℚ) - frac else (n : ℚ) + frac)
        | none => none
      else none
    | _ => none

/-- Model of the pandas column type inference reported by df.dtypes: int64
for a complete integer column, float64 when every present value is numeric
or the whole column is missing, object otherwise. -/
def inferDtype (cells : List Cell) : String :=
  let vals := cells.filterMap id
  if vals ≠ [] ∧ vals.all (fun v => (toIntModel? v).isSome) ∧ cells.all (fun c => c.isSome) then
    "int64"
  else if vals ≠ [] ∧ vals.all (fun v => (ratOfString? v).isSome) then
    "float64"
  else if vals = [] ∧ cells ≠ [] then
    "float64"
  else
    "object"

/-- Value of one describe cell: a string statistic, an exact rational, or
the square root of a rational kept symbolically (the standard deviation). -/
inductive DVal where
  | str (s : String)
  | rat (q : ℚ)
  | sqrtOf (q : ℚ)
deriving DecidableEq

/-- Whether column j of a frame is numeric. -/
def colIsNumeric (df : DataFrame) (j : Nat) : Bool :=
  inferDtype (colCells df j) ≠ "object"

/-- Row index of the describe table under include all: the union of the
per-column statistic indexes, as pandas emits it.  A frame with both
object and numeric columns gets the object statistics merged before the
numeric ones; a homogeneous frame only gets the rows applicable to it, so
an all-numeric frame has no unique, top or freq row at all. -/
def statIndex (df : DataFrame) : List String :=
  let hasObj := (List.range df.columns.length).any (fun j => ¬ colIsNumeric df j)
  let hasNum := (List.range df.columns.length).any (fun j => colIsNumeric df j)
  if hasObj ∧ hasNum then
    ["count", "unique", "top", "freq", "mean", "std", "min", "25%", "50%", "75%", "max"]
  else if hasNum then
    ["count", "mean", "std", "min", "25%", "50%", "75%", "max"]
  else if hasObj then
    ["count", "unique", "top", "freq"]
  else []

/-- Most frequent value of a list together with its multiplicity, ties
resolved by first occurrence; models the top and freq describe rows. -/
def topFreq (vals : List String) : Option (String × Nat) :=
  vals.foldl
    (fun acc v =>
      match acc with
      | none => some (v, vals.count v)
      | some (tv, tc) => if vals.count v > tc then some (v, vals.count v) else some (tv, tc))
    none

/-- Linear-interpolation quantile on a sorted list of rationals, the method
pandas describe uses; none on an empty list. -/
def quantileAt (sorted : List ℚ) (p : ℚ) : Option ℚ :=
  match sorted with
  | [] => none
  | _ =>
    let pos : ℚ := p * ((sorted.length : ℚ) - 1)
    let lo : Nat := (⌊pos⌋).toNat
    let x0 := sorted.getD lo 0
    let x1 := sorted.getD (lo + 1) x0
    some (x0 + (pos - (⌊pos⌋ : ℚ)) * (x1 - x0))

/-- One describe statistic for a column; none where the statistic does not
apply to the column (an object statistic on a numeric column and the other
way round), which fillna later renders as the empty string. -/
def statFor (cells : List Cell) (stat : String) : Option DVal :=
  let vals := cells.filterMap id
  let numeric := inferDtype cells ≠ "object"
  if numeric then
    let qs := vals.filterMap ratOfString?
    let sorted := qs.insertionSort (fun a b => a ≤ b)
    let n := qs.length
    let mean : Option ℚ := if n = 0 then none else some (qs.sum / (n : ℚ))
    match stat with
    | "count" => some (.rat (n : ℚ))
    | "mean" => mean.map .rat
    | "std" =>
      if n ≥ 2 then
        mean.map (fun m => .sqrtOf ((qs.map (fun x => (x - m) ^ 2)).sum / ((n : ℚ) - 1)))
      else none
    | "min" => sorted.head?.map .rat
    | "25%" => (quantileAt sorted (1 / 4)).map .rat
    | "50%" => (quantileAt sorted (1 / 2)).map .rat
    | "75%" => (quantileAt sorted (3 / 4)).map .rat
    | "max" => sorted.getLast?.map .rat
    | _ => none
  else
    match stat with
    | "count" => some (.rat (vals.length : ℚ))
    | "unique" => some (.rat (vals.dedup.length : ℚ))
    | "top" => (topFreq vals).map (fun tf => .str tf.1)
    | "freq" => (topFreq vals).map (fun tf => .rat (tf.2 : ℚ))
    | _ => none

/-- Summary dictionary built by analyze_csv (agent.py lines 48-55). -/
structure Summary where
  shape : Nat × Nat
  columns : List String
  non_null_counts : List (String × Nat)
  dtypes : List (String × String)
  describe : List (String × List (String × DVal))
  head : List (List (String × Cell))
deriving DecidableEq

/-- Body of analyze_csv after the data frame is obtained: shape, column
names, per-column non-null counts, per-column inferred type labels, the
describe table with missing entries filled with the empty string, and the
first 5 rows as column-to-value records. -/
def summarize (df : DataFrame) : Summary :=
  { shape := (df.rows.length, df.columns.length)
    columns := df.columns
    non_null_counts :=
      df.columns.enum.map (fun jc =>
        (jc.2, ((colCells df jc.1).filter (fun c => c.isSome)).length))
    dtypes := df.columns.enum.map (fun jc => (jc.2, inferDtype (colCells df jc.1)))
    describe :=
      df.columns.enum.map (fun jc =>
        (jc.2, (statIndex df).map
          (fun st => (st, (statFor (colCells df jc.1) st).getD (.str "")))))
    head :=
      (df.rows.take 5).map (fun r =>
        df.columns.enum.map (fun jc => (jc.2, r.getD jc.1 none))) }

/-- Python truthiness of an optional string argument: present and non-empty. -/
def truthy : Option String → Bool
  | none => false
  | some s => s ≠ ""

/-- Outcome of analyze_csv: a profile, or the raised ValueError. -/
inductive AnalyzeResult where
  | profile (p : Summary)
  | valueError (msg : String)
deriving DecidableEq

/-- analyze_csv (agent.py lines 40-56): when path is truthy read the file at
path, otherwise when csv is truthy parse the inline content, otherwise raise
ValueError; then profile the frame.  fs maps a path to the file content. -/
def analyze_csv (csv path : Option String) (fs : String → String) : AnalyzeResult :=
  if truthy path then
    .profile (summarize (read_csv (fs (path.getD ""))))
  else if truthy csv then
    .profile (summarize (read_csv (csv.getD "")))
  else
    .valueError "Provide csv (string) or path."

/-! ## extract_text (agent.py, lines 96-106)

Response items are modelled with their type tag, an optional list of content
blocks, and optional text and value fields; none stands both for a missing
attribute and for a None value, matching the getattr defaults the code uses. -/

/-- Content block of a message item. -/
structure Block where
  btype : String
  text : Option String
  value : Option String
deriving DecidableEq

/-- Output item as extract_text probes it. -/
structure OutItem where
  itype : String
  content : Option (List Block)
  text : Option String
  value : Option String
deriving DecidableEq

/-- The expression getattr x text default-empty or-else getattr x value
default-empty: the text field when it is truthy, else the value field, else
the empty string. -/
def textOrValue (text value : Option String) : String :=
  if text.getD "" = "" then value.getD "" else text.getD ""

/-- Python truthiness of the content attribute: present and non-empty. -/
def contentTruthy : Option (List Block) → Bool
  | some (_ :: _) => true
  | _ => false

/-- Chunk collection of extract_text: from a message item with truthy
content, the preferred text of each output_text or text block; from a bare
output_text or text item, its own preferred text; nothing otherwise. -/
def chunksOf (items : List OutItem) : List String :=
  items.flatMap fun it =>
    if it.itype = "message" ∧ contentTruthy it.content then
      (it.content.getD []).filterMap (fun b =>
        if b.btype = "output_text" ∨ b.btype = "text" then
          some (textOrValue b.text b.value)
        else none)
    else if it.itype = "output_text" ∨ it.itype = "text" then
      [textOrValue it.text it.value]
    else []

/-- extract_text: newline-join of the non-empty chunks. -/
def extract_text (items : List OutItem) : String :=
  String.intercalate "\n" ((chunksOf items).filter (fun c => c ≠ ""))

/-! ## POST /run handler (flask_app.py, lines 71-83)

The JSON body is reduced to the optional prompt field (none when the body
was unparseable or had no prompt key, matching data.get falling back through
the or-empty default).  The tool loop and the extractor are abstracted by
their outcome: ok carries the extracted text, error carries the message of
the exception that escaped. -/

/-- JSON reply of the handler. -/
structure RunReply where
  ok : Bool
  text : Option String
  error : Option String
deriving DecidableEq

/-- Result of the handler: the JSON reply, the HTTP status, and whether the
tool loop was invoked. -/
structure RunOutcome where
  reply : RunReply
  status : Nat
  invoked : Bool
deriving DecidableEq

/-- run_endpoint: strip the prompt; when it is blank answer 400 without
invoking the loop; otherwise invoke the loop and answer 200 with the text on
success or 500 with the error message when an exception escapes. -/
def run_endpoint (promptField : Option String) (loopResult : Except String String) :
    RunOutcome :=
  let prompt := strip (promptField.getD "")
  if prompt = "" then
    ⟨⟨false, none, some "Missing prompt"⟩, 400, false⟩
  else
    match loopResult with
    | .ok text => ⟨⟨true, some text, none⟩, 200, true⟩
    | .error e => ⟨⟨false, none, some e⟩, 500, true⟩

/-! ## Spec-side definitions and concrete fixtures -/

/-- Spec-side reading of the extractor contract: the text values of the
textual blocks of a message item, each block preferring its text field and
falling back to its value field. -/
def specBlockTexts (blocks : List Block) : List String :=
  (blocks.filter (fun b => b.btype = "output_text" ∨ b.btype = "text")).map
    (fun b => textOrValue b.text b.value)

/-- Spec-side reading of the extractor contract: every text value found in
document order, from message content blocks and from bare textual items. -/
def specTextValues : List OutItem → List String
  | [] => []
  | it :: rest =>
    (if it.itype = "message" ∧ contentTruthy it.content then
      specBlockTexts (it.content.getD [])
    else if it.itype = "output_text" ∨ it.itype = "text" then
      [textOrValue it.text it.value]
    else []) ++ specTextValues rest

/-- Fixture: a tool implementation that always succeeds. -/
def implOk : ToolImpl := fun _ _ => .ok "ok"

/-- Fixture: a tool implementation that always raises. -/
def implErr : ToolImpl := fun _ _ => .error "boom"

/-- Fixture: an endpoint whose next response has no output items. -/
def submitDone : Endpoint := fun _ _ => ⟨[]⟩

/-- Fixture: a file system with one CSV file everywhere. -/
def fsFix : String → String := fun _ => "a,b\n1,2\n3,4"

/-! ## Helper lemmas -/

/-- When every pending name misses the registry, the inner for-loop of
run_with_tools produces no outputs. -/
theorem toolOutputsFor_nil_of_miss (impl : ToolImpl) :
    ∀ calls : List RItem, (∀ c ∈ calls, c.name ∉ CUSTOM_TOOLS_names) →
      toolOutputsFor impl calls = [] := by
  intro calls h
  induction calls with
  | nil => rfl
  | cons hd tl ih =>
    have hhd : hd.name ∉ CUSTOM_TOOLS_names := h hd (List.mem_cons_self hd tl)
    have htl : toolOutputsFor impl tl = [] :=
      ih (fun c hc => h c (List.mem_cons_of_mem hd hc))
    simp only [toolOutputsFor, List.flatMap_cons] at htl ⊢
    rw [if_neg hhd, List.nil_append]
    exact htl

/-- Every batch the loop passes to submit_tool_outputs is non-empty. -/
theorem run_aux_batches_ne_nil (submit : Endpoint) (impl : ToolImpl) :
    ∀ fuel resp b, b ∈ (run_with_tools_aux submit impl fuel resp).2 → b ≠ [] := by
  intro fuel
  induction fuel with
  | zero =>
    intro resp b hb
    simp [run_with_tools_aux] at hb
  | succ n ih =>
    intro resp b hb
    simp only [run_with_tools_aux] at hb
    by_cases h1 : (toolCallsOf resp).isEmpty
    · simp [h1] at hb
    · by_cases h2 : (toolOutputsFor impl (toolCallsOf resp)).isEmpty
      · simp [h1, h2] at hb
      · simp only [h1, h2, Bool.false_eq_true, if_false, List.mem_cons] at hb
        rcases hb with hb | hb
        · subst hb
          exact fun hnil => h2 (by simp [hnil])
        · exact ih _ b hb

/-- Filtering the produced outputs by a correlation id is the same as
producing outputs for the calls that carry that id. -/
theorem toolOutputsFor_filter_id (impl : ToolImpl) (i : String) :
    ∀ calls : List RItem,
      (toolOutputsFor impl calls).filter (fun o => o.tool_call_id = i) =
        toolOutputsFor impl (calls.filter (fun c => c.id = i)) := by
  intro calls
  induction calls with
  | nil => rfl
  | cons hd tl ih =>
    have hstep : ∀ l : List RItem, toolOutputsFor impl (hd :: l) =
        toolOutputsFor impl [hd] ++ toolOutputsFor impl l := by
      intro l
      simp [toolOutputsFor]
    by_cases hid : hd.id = i
    · rw [hstep tl, List.filter_append, ih,
        List.filter_cons_of_pos (by simp [hid]), hstep (tl.filter (fun c => c.id = i))]
      congr 1
      by_cases hn : hd.name ∈ CUSTOM_TOOLS_names
      · cases himpl : impl hd.name hd.arguments with
        | ok r => simp [toolOutputsFor, hn, himpl, hid]
        | error e => simp [toolOutputsFor, hn, himpl, hid]
      · simp [toolOutputsFor, hn]
    · rw [hstep tl, List.filter_append, ih, List.filter_cons_of_neg (by simp [hid])]
      have hnil : (toolOutputsFor impl [hd]).filter (fun o => o.tool_call_id = i) = [] := by
        by_cases hn : hd.name ∈ CUSTOM_TOOLS_names
        · cases himpl : impl hd.name hd.arguments with
          | ok r => simp [toolOutputsFor, hn, himpl, hid]
          | error e => simp [toolOutputsFor, hn, himpl, hid]
        · simp [toolOutputsFor, hn]
      rw [hnil, List.nil_append]

/-! ## Claim theorems -/

/-- C1: the claimed invariant that every tool-call request observed in a
round receives exactly one result with its correlation id before the next
round-trip fails on the code.  In a round with one registered and one
unknown tool the batch contains a single result, none of them for the
unknown request, and the loop nevertheless issues the next round-trip. -/
theorem unknown_tool_request_dropped :
    toolOutputsFor implOk
        [⟨"tool_call", "call_1", "fetch_url", []⟩, ⟨"tool_call", "call_2", "nope", []⟩] =
      [⟨"call_1", .success "ok"⟩] ∧
    (toolOutputsFor implOk
        [⟨"tool_call", "call_1", "fetch_url", []⟩, ⟨"tool_call", "call_2", "nope", []⟩]).filter
        (fun o => o.tool_call_id = "call_2") = [] ∧
    (run_with_tools_aux submitDone implOk 2
        ⟨[⟨"tool_call", "call_1", "fetch_url", []⟩, ⟨"tool_call", "call_2", "nope", []⟩]⟩).2 ≠
      [] := by
  decide

/-- C2: when every pending request names an unknown tool, the round
produces zero outputs, the loop returns the current response at once and
submits nothing further; and no batch ever submitted to the endpoint is
empty. -/
theorem unknown_tools_fallback (submit : Endpoint) (impl : ToolImpl) (fuel f : Nat)
    (resp r : Response) (b : List ToolOutput)
    (hmiss : ∀ it ∈ toolCallsOf resp, it.name ∉ CUSTOM_TOOLS_names)
    (hne : toolCallsOf resp ≠ [])
    (hb : b ∈ (run_with_tools_aux submit impl f r).2) :
    run_with_tools_aux submit impl (fuel + 1) resp = (resp, []) ∧ b ≠ [] := by
  refine ⟨?_, run_aux_batches_ne_nil submit impl f r b hb⟩
  have houts : toolOutputsFor impl (toolCallsOf resp) = [] :=
    toolOutputsFor_nil_of_miss impl (toolCallsOf resp) hmiss
  simp [run_with_tools_aux, hne, houts]

/-- C2 witness: a round whose single request names an unregistered tool
returns at once, and the batch of a run that did submit is non-empty. -/
theorem unknown_tools_fallback_witness :
    run_with_tools_aux submitDone implOk (0 + 1) ⟨[⟨"tool_call", "u1", "nope", []⟩]⟩ =
      (⟨[⟨"tool_call", "u1", "nope", []⟩]⟩, []) ∧
    ([⟨"c2", Payload.success "ok"⟩] : List ToolOutput) ≠ [] :=
  unknown_tools_fallback submitDone implOk 0 2
    ⟨[⟨"tool_call", "u1", "nope", []⟩]⟩
    ⟨[⟨"tool_call", "c2", "fetch_url", []⟩]⟩
    [⟨"c2", Payload.success "ok"⟩]
    (by decide) (by decide) (by decide)

/-- C3: a registry-matched request whose implementation raises gets exactly
one result, carrying its correlation id and the structured error payload;
every registry-matched request gets some result; and the batch is non-empty
so the loop goes on to the next round-trip. -/
theorem tool_exception_captured (impl : ToolImpl) (calls : List RItem) (c d : RItem)
    (e : String)
    (hmem : c ∈ calls) (hreg : c.name ∈ CUSTOM_TOOLS_names)
    (hexc : impl c.name c.arguments = .error e)
    (huniq : calls.filter (fun x => x.id = c.id) = [c])
    (hd : d ∈ calls) (hdreg : d.name ∈ CUSTOM_TOOLS_names) :
    (⟨c.id, Payload.error e⟩ : ToolOutput) ∈ toolOutputsFor impl calls ∧
    (toolOutputsFor impl calls).filter (fun o => o.tool_call_id = c.id) =
      [⟨c.id, Payload.error e⟩] ∧
    (toolOutputsFor impl calls).any (fun o => o.tool_call_id = d.id) = true ∧
    toolOutputsFor impl calls ≠ [] := by
  have hmemo : (⟨c.id, Payload.error e⟩ : ToolOutput) ∈ toolOutputsFor impl calls := by
    simp only [toolOutputsFor, List.mem_flatMap]
    exact ⟨c, hmem, by simp [hreg, hexc]⟩
  refine ⟨hmemo, ?_, ?_, List.ne_nil_of_mem hmemo⟩
  · rw [toolOutputsFor_filter_id, huniq]
    simp [toolOutputsFor, hreg, hexc]
  · rw [List.any_eq_true]
    cases himpl : impl d.name d.arguments with
    | ok r =>
      refine ⟨⟨d.id, Payload.success r⟩, ?_, by simp⟩
      simp only [toolOutputsFor, List.mem_flatMap]
      exact ⟨d, hd, by simp [hdreg, himpl]⟩
    | error e2 =>
      refine ⟨⟨d.id, Payload.error e2⟩, ?_, by simp⟩
      simp only [toolOutputsFor, List.mem_flatMap]
      exact ⟨d, hd, by simp [hdreg, himpl]⟩

/-- C3 witness: a single analyze_csv request whose implementation raises
receives exactly the structured error result. -/
theorem tool_exception_captured_witness :
    (⟨"c1", Payload.error "boom"⟩ : ToolOutput) ∈
      toolOutputsFor implErr [⟨"tool_call", "c1", "analyze_csv", []⟩] ∧
    (toolOutputsFor implErr [⟨"tool_call", "c1", "analyze_csv", []⟩]).filter
      (fun o => o.tool_call_id = "c1") = [⟨"c1", Payload.error "boom"⟩] ∧
    (toolOutputsFor implErr [⟨"tool_call", "c1", "analyze_csv", []⟩]).any
      (fun o => o.tool_call_id = "c1") = true ∧
    toolOutputsFor implErr [⟨"tool_call", "c1", "analyze_csv", []⟩] ≠ [] :=
  tool_exception_captured implErr [⟨"tool_call", "c1", "analyze_csv", []⟩]
    ⟨"tool_call", "c1", "analyze_csv", []⟩ ⟨"tool_call", "c1", "analyze_csv", []⟩ "boom"
    (by decide) (by decide) rfl (by decide) (by decide) (by decide)

/-- C4: for every successful fetch the summary carries the stripped text of
the first title element (empty when there is none), the ordered h1 texts
and the raw length of the body; a preview is present if and only if
take_table is set and the page has a table; and any present preview is the
first table cut to at most 6 rows, each preview row being the source row,
so the lengths agree. -/
theorem fetch_url_page_summary (soup : Soup) (tt : Bool) :
    (fetch_url soup tt).title =
      (match soup.titleString with | some t0 => strip t0 | none => "") ∧
    (fetch_url soup tt).h1s = soup.h1Texts ∧
    (fetch_url soup tt).length = soup.htmlLen ∧
    (fetch_url soup tt).table_preview.isSome = (tt && !soup.tables.isEmpty) ∧
    (∀ p, (fetch_url soup tt).table_preview = some p →
      p = (soup.tables.headD []).take 6 ∧
      p.length ≤ 6 ∧
      ∀ i, i < p.length →
        (p.getD i []).length = ((soup.tables.headD []).getD i []).length) := by
  have htitle : (fetch_url soup tt).title =
      (match soup.titleString with | some t0 => strip t0 | none => "") := by
    cases ht : soup.titleString with
    | none => simp [fetch_url, ht]
    | some t0 =>
      by_cases h0 : t0 = ""
      · subst h0
        simp [fetch_url, ht]
        rfl
      · simp [fetch_url, ht, h0]
  have hsome : (fetch_url soup tt).table_preview.isSome = (tt && !soup.tables.isEmpty) := by
    cases tt with
    | false => simp [fetch_url]
    | true =>
      cases htab : soup.tables with
      | nil => simp [fetch_url, htab]
      | cons a l => simp [fetch_url, htab]
  refine ⟨htitle, rfl, rfl, hsome, ?_⟩
  intro p hp
  cases tt with
  | false => simp [fetch_url] at hp
  | true =>
    simp only [fetch_url, if_true] at hp
    cases htab : soup.tables with
    | nil => rw [htab] at hp; simp at hp
    | cons a l =>
      rw [htab] at hp
      simp only [List.head?_cons, Option.map_some', Option.some_inj] at hp
      have hpa : p = a.take 6 := hp.symm
      refine ⟨by simp [hpa], ?_, ?_⟩
      · rw [hpa, List.length_take]
        exact min_le_left _ _
      · intro i hi
        have hi6 : i < 6 := by
          rw [hpa, List.length_take] at hi
          exact lt_of_lt_of_le hi (min_le_left _ _)
        rw [List.headD_cons, hpa]
        rw [List.getD_eq_getElem?_getD, List.getD_eq_getElem?_getD,
          List.getElem?_take_of_lt hi6]

/-- C4 witness: the theorem applied to a concrete page with a padded title
and a two-row table, fetched with take_table set. -/
theorem fetch_url_page_summary_witness :
    (fetch_url ⟨some " T ", ["h"], [[["a", "b"], ["c"]]], 10⟩ true).title =
      (match (some " T " : Option String) with | some t0 => strip t0 | none => "") ∧
    (fetch_url ⟨some " T ", ["h"], [[["a", "b"], ["c"]]], 10⟩ true).h1s = ["h"] ∧
    (fetch_url ⟨some " T ", ["h"], [[["a", "b"], ["c"]]], 10⟩ true).length = 10 ∧
    (fetch_url ⟨some " T ", ["h"], [[["a", "b"], ["c"]]], 10⟩ true).table_preview.isSome =
      (true && !([[["a", "b"], ["c"]]] : List (List (List String))).isEmpty) ∧
    (∀ p, (fetch_url ⟨some " T ", ["h"], [[["a", "b"], ["c"]]], 10⟩ true).table_preview =
        some p →
      p = (([[["a", "b"], ["c"]]] : List (List (List String))).headD []).take 6 ∧
      p.length ≤ 6 ∧
      ∀ i, i < p.length →
        (p.getD i []).length =
          ((([[["a", "b"], ["c"]]] : List (List (List String))).headD []).getD i []).length) :=
  fetch_url_page_summary ⟨some " T ", ["h"], [[["a", "b"], ["c"]]], 10⟩ true

/-- C5: with neither argument, analyze_csv raises the explicit ValueError
asking for csv or path (a value of the embedding, not a crash); and with
both arguments usable, path is checked first and takes precedence. -/
theorem analyze_csv_validation (c p : Option String) (fs : String → String)
    (hp : truthy p = true) :
    analyze_csv none none fs = .valueError "Provide csv (string) or path." ∧
    analyze_csv c p fs = .profile (summarize (read_csv (fs (p.getD "")))) := by
  constructor
  · rfl
  · simp [analyze_csv, hp]

/-- C5 witness: inline content plus a path; the path wins. -/
theorem analyze_csv_validation_witness :
    analyze_csv none none fsFix = .valueError "Provide csv (string) or path." ∧
    analyze_csv (some "x,y") (some "f.csv") fsFix =
      .profile (summarize (read_csv (fsFix ((some "f.csv").getD "")))) :=
  analyze_csv_validation (some "x,y") (some "f.csv") fsFix (by decide)

/-- C8: analyze_csv is a deterministic function of its arguments and of the
file contents: two calls on identical input give identical output. -/
theorem analyze_csv_deterministic (c p : Option String) (fs : String → String)
    (r1 r2 : AnalyzeResult)
    (h1 : analyze_csv c p fs = r1) (h2 : analyze_csv c p fs = r2) :
    r1 = r2 :=
  h1.symm.trans h2

/-- C8 witness: the same inline call twice. -/
theorem analyze_csv_deterministic_witness :
    analyze_csv (some "a\n1") none fsFix = analyze_csv (some "a\n1") none fsFix :=
  analyze_csv_deterministic (some "a\n1") none fsFix
    (analyze_csv (some "a\n1") none fsFix) (analyze_csv (some "a\n1") none fsFix) rfl rfl

/-- C10: the csv-or-path choice is by truthiness, not presence: an empty
path with non-empty inline content parses the inline content, and an empty
csv with no path raises the same ValueError as no argument at all. -/
theorem analyze_csv_truthiness (s : String) (fs : String → String) (hs : s ≠ "") :
    analyze_csv (some s) (some "") fs = .profile (summarize (read_csv s)) ∧
    analyze_csv (some "") none fs = .valueError "Provide csv (string) or path." := by
  constructor
  · simp [analyze_csv, truthy, hs]
  · rfl

/-- C10 witness: empty path next to usable inline content. -/
theorem analyze_csv_truthiness_witness :
    analyze_csv (some "a,b\n1,2") (some "") fsFix =
      .profile (summarize (read_csv "a,b\n1,2")) ∧
    analyze_csv (some "") none fsFix = .valueError "Provide csv (string) or path." :=
  analyze_csv_truthiness "a,b\n1,2" fsFix (by decide)

/-- C9: the handler answers 400 with the error reply and without invoking
the loop when the stripped prompt is blank; 200 with the ok reply and the
text when the loop succeeds; 500 with the error reply when an exception
escapes the loop; every reply carries the ok discriminator. -/
theorem run_endpoint_contract (pf pf2 : Option String) (lr : Except String String)
    (t e : String)
    (hblank : strip (pf.getD "") = "")
    (hp : strip (pf2.getD "") ≠ "") :
    run_endpoint pf lr = ⟨⟨false, none, some "Missing prompt"⟩, 400, false⟩ ∧
    run_endpoint pf2 (.ok t) = ⟨⟨true, some t, none⟩, 200, true⟩ ∧
    run_endpoint pf2 (.error e) = ⟨⟨false, none, some e⟩, 500, true⟩ := by
  refine ⟨?_, ?_, ?_⟩ <;> simp [run_endpoint, hblank, hp]

/-- C9 witness: a whitespace prompt against a real prompt with a successful
and a failing loop. -/
theorem run_endpoint_contract_witness :
    run_endpoint (some "  ") (.ok "x") = ⟨⟨false, none, some "Missing prompt"⟩, 400, false⟩ ∧
    run_endpoint (some "hi") (.ok "ans") = ⟨⟨true, some "ans", none⟩, 200, true⟩ ∧
    run_endpoint (some "hi") (.error "boom") = ⟨⟨false, none, some "boom"⟩, 500, true⟩ :=
  run_endpoint_contract (some "  ") (some "hi") (.ok "x") "ans" "boom"
    (by decide) (by decide)

/-- Collecting through an if-guarded filterMap is filtering then mapping. -/
theorem filterMap_ite_eq_map_filter {α β : Type} (q : α → Prop) [DecidablePred q]
    (f : α → β) :
    ∀ l : List α,
      l.filterMap (fun a => if q a then some (f a) else none) =
        (l.filter (fun a => q a)).map f := by
  intro l
  induction l with
  | nil => rfl
  | cons a t ih =>
    by_cases hq : q a
    · simp [List.filterMap_cons, List.filter_cons, hq, ih]
    · simp [List.filterMap_cons, List.filter_cons, hq, ih]

/-- C6: extract_text is the newline-join of every text value found in
document order, from message content blocks and bare textual items, each
preferring the text field and falling back to the value field, skipping
empty strings; and it is the empty string when nothing is found. -/
theorem extract_text_document_order (items : List OutItem) :
    extract_text items =
      String.intercalate "\n" ((specTextValues items).filter (fun c => c ≠ "")) ∧
    extract_text [] = "" := by
  refine ⟨?_, rfl⟩
  have h : ∀ its : List OutItem, chunksOf its = specTextValues its := by
    intro its
    induction its with
    | nil => rfl
    | cons it rest ih =>
      simp only [chunksOf, List.flatMap_cons, specTextValues]
      congr 1
      · by_cases h1 : it.itype = "message" ∧ contentTruthy it.content
        · rw [if_pos h1, if_pos h1]
          exact filterMap_ite_eq_map_filter
            (fun b : Block => b.btype = "output_text" ∨ b.btype = "text")
            (fun b : Block => textOrValue b.text b.value) (it.content.getD [])
        · rw [if_neg h1, if_neg h1]
  show String.intercalate "\n" ((chunksOf items).filter (fun c => c ≠ "")) = _
  rw [h items]

/-- Second components of an enumeration give back the list. -/
theorem map_snd_enumFrom {α : Type} :
    ∀ (l : List α) (n : Nat), (l.enumFrom n).map Prod.snd = l
  | [], _ => rfl
  | a :: t, n => by
    simp only [List.enumFrom, List.map_cons]
    rw [map_snd_enumFrom t (n + 1)]

/-- The keys of a per-column table built over the enumerated columns are
the columns themselves. -/
theorem map_fst_pair_enum {γ : Type} (l : List String) (g : Nat × String → γ) :
    (l.enum.map (fun jc => (jc.2, g jc))).map Prod.fst = l := by
  rw [List.map_map]
  have h : (Prod.fst ∘ fun jc : Nat × String => (jc.2, g jc)) = Prod.snd := by
    funext x
    rfl
  rw [h]
  exact map_snd_enumFrom l 0

/-- Entry j of a table built over the enumerated columns. -/
theorem getD_enum_map {γ : Type} (l : List String) (g : Nat × String → γ) (j : Nat)
    (d : γ) (hj : j < l.length) :
    (l.enum.map g).getD j d = g (j, l.getD j "") := by
  have h1 : l[j]? = some (l.getD j "") := by
    rw [List.getElem?_eq_getElem hj, List.getD_eq_getElem?_getD,
      List.getElem?_eq_getElem hj]
    rfl
  rw [List.getD_eq_getElem?_getD, List.getElem?_map, List.getElem?_enum, h1]
  rfl

/-- Looking a present key up in a key-indexed map of a list finds its value. -/
theorem lookup_map_keys {γ : Type} (f : String → γ) :
    ∀ (l : List String) (st : String), st ∈ l →
      (l.map (fun x => (x, f x))).lookup st = some (f st) := by
  intro l
  induction l with
  | nil =>
    intro st h
    cases h
  | cons a t ih =>
    intro st h
    by_cases hst : a = st
    · subst hst
      simp [List.lookup]
    · have hmem : st ∈ t := by
        rcases List.mem_cons.mp h with h1 | h1
        · exact absurd h1.symm hst
        · exact h1
      have hne : (st == a) = false :=
        beq_eq_false_iff_ne.mpr (fun hh => hst hh.symm)
      simp only [List.map_cons, List.lookup, hne]
      exact ih st hmem

/-- Building a string from a character list and reading it back is the
identity. -/
theorem toList_mk (l : List Char) : (⟨l⟩ : String).toList = l :=
  rfl

/-- A string is the string of its character list. -/
theorem mk_toList (s : String) : (⟨s.toList⟩ : String) = s :=
  rfl

/-- One step of splitChars at the separator. -/
theorem splitChars_cons_sep (sep : Char) (cs : List Char) (acc : List Char) :
    splitChars sep (sep :: cs) acc = ⟨acc.reverse⟩ :: splitChars sep cs [] := by
  simp [splitChars]

/-- One step of splitChars away from the separator. -/
theorem splitChars_cons_ne (sep c : Char) (cs : List Char) (acc : List Char)
    (h : c ≠ sep) :
    splitChars sep (c :: cs) acc = splitChars sep cs (c :: acc) := by
  simp [splitChars, h]

/-- The accumulator of splitChars only prefixes the first segment. -/
theorem splitChars_acc (sep : Char) :
    ∀ (cs : List Char) (acc : List Char),
      splitChars sep cs acc =
        ⟨acc.reverse ++ ((splitChars sep cs []).headD "").toList⟩ ::
          (splitChars sep cs []).tail := by
  intro cs
  induction cs with
  | nil =>
    intro acc
    simp [splitChars, toList_mk]
  | cons c cs2 ih =>
    intro acc
    by_cases hc : c = sep
    · subst hc
      rw [splitChars_cons_sep, splitChars_cons_sep]
      simp [toList_mk]
    · rw [splitChars_cons_ne sep c cs2 acc hc, splitChars_cons_ne sep c cs2 [] hc]
      rw [ih (c :: acc), ih [c]]
      simp [toList_mk]

/-- splitChars on separator-free input is a single segment. -/
theorem splitChars_no_sep (sep : Char) :
    ∀ (cs : List Char) (acc : List Char), (∀ c ∈ cs, c ≠ sep) →
      splitChars sep cs acc = [⟨acc.reverse ++ cs⟩] := by
  intro cs
  induction cs with
  | nil =>
    intro acc _
    simp [splitChars]
  | cons c cs2 ih =>
    intro acc h
    have hc : c ≠ sep := h c (List.mem_cons_self c cs2)
    rw [splitChars_cons_ne sep c cs2 acc hc,
      ih (c :: acc) (fun d hd => h d (List.mem_cons_of_mem c hd))]
    simp

/-- splitChars cuts at the first separator. -/
theorem splitChars_first_sep (sep : Char) :
    ∀ (p t : List Char) (acc : List Char), (∀ c ∈ p, c ≠ sep) →
      splitChars sep (p ++ sep :: t) acc =
        ⟨acc.reverse ++ p⟩ :: splitChars sep t [] := by
  intro p
  induction p with
  | nil =>
    intro t acc _
    rw [List.nil_append, splitChars_cons_sep]
    simp
  | cons c p2 ih =>
    intro t acc h
    have hc : c ≠ sep := h c (List.mem_cons_self c p2)
    rw [List.cons_append, splitChars_cons_ne sep c (p2 ++ sep :: t) acc hc,
      ih t (c :: acc) (fun d hd => h d (List.mem_cons_of_mem c hd))]
    simp

/-- splitChars of a non-empty input is never the single empty segment. -/
theorem splitChars_ne_single_empty (sep : Char) :
    ∀ cs : List Char, cs ≠ [] → splitChars sep cs [] ≠ [""] := by
  intro cs hcs
  cases cs with
  | nil => exact absurd rfl hcs
  | cons c cs2 =>
    by_cases hc : c = sep
    · rw [hc, splitChars_cons_sep, splitChars_acc sep cs2 []]
      intro heq
      simp at heq
    · rw [splitChars_cons_ne sep c cs2 [] hc, splitChars_acc sep cs2 [c]]
      intro heq
      simp only [List.cons.injEq] at heq
      have h3 : [c].reverse ++ ((splitChars sep cs2 []).headD "").toList = ([] : List Char) :=
        congrArg String.data heq.1
      simp at h3

/-- One step of the tokenizer on a plain comma. -/
theorem csvRecords_cons_comma (rest : List Char) (field : List Char) (row : List String) :
    csvRecords (commaChar :: rest) 0 field row =
      csvRecords rest 0 [] ((⟨field.reverse⟩ : String) :: row) :=
  rfl

/-- One step of the tokenizer on a plain newline. -/
theorem csvRecords_cons_nl (rest : List Char) (field : List Char) (row : List String) :
    csvRecords (nlChar :: rest) 0 field row =
      ((⟨field.reverse⟩ : String) :: row).reverse :: csvRecords rest 0 [] [] :=
  rfl

/-- One step of the tokenizer on an ordinary character. -/
theorem csvRecords_cons_other (c : Char) (rest : List Char) (field : List Char)
    (row : List String)
    (h1 : c ≠ quoteChar) (h2 : c ≠ commaChar) (h3 : c ≠ nlChar) :
    csvRecords (c :: rest) 0 field row = csvRecords rest 0 (c :: field) row := by
  simp [csvRecords, h1, h2, h3]

/-- On quote-free input the tokenizer coincides with splitting the text into
lines and every line into comma-separated fields. -/
theorem csvRecords_unquoted :
    ∀ (cs : List Char) (field : List Char) (row : List String),
      (∀ c ∈ cs, c ≠ quoteChar) →
      (∀ c ∈ field, c ≠ commaChar ∧ c ≠ nlChar) →
      csvRecords cs 0 field row =
        (row.reverse ++ splitChars commaChar
          (field.reverse ++ ((splitChars nlChar cs []).headD "").toList) []) ::
        ((splitChars nlChar cs []).tail.map (fun l => splitChars commaChar l.toList [])) := by
  intro cs
  induction cs with
  | nil =>
    intro field row _ hf
    have hfr : ∀ c ∈ field.reverse, c ≠ commaChar := by
      intro c hc
      exact (hf c (List.mem_reverse.mp hc)).1
    show [((⟨field.reverse⟩ : String) :: row).reverse] = _
    rw [show splitChars nlChar [] [] = [(⟨[]⟩ : String)] from rfl]
    simp only [List.headD_cons, List.tail_cons, List.map_nil]
    rw [toList_mk, List.append_nil, splitChars_no_sep commaChar field.reverse [] hfr]
    simp
  | cons c rest ih =>
    intro field row hq hf
    have hcq : c ≠ quoteChar := hq c (List.mem_cons_self c rest)
    have hqr : ∀ d ∈ rest, d ≠ quoteChar := fun d hd => hq d (List.mem_cons_of_mem c hd)
    have hfr : ∀ d ∈ field.reverse, d ≠ commaChar := by
      intro d hd
      exact (hf d (List.mem_reverse.mp hd)).1
    by_cases hcc : c = commaChar
    · rw [hcc, csvRecords_cons_comma,
        ih [] ((⟨field.reverse⟩ : String) :: row) hqr
          (by intro d hd; exact absurd hd (List.not_mem_nil d)),
        splitChars_cons_ne nlChar commaChar rest [] (by decide),
        splitChars_acc nlChar rest [commaChar]]
      simp only [List.headD_cons, List.tail_cons, List.reverse_cons, List.reverse_nil,
        List.nil_append, toList_mk, List.singleton_append]
      rw [splitChars_first_sep commaChar field.reverse _ [] hfr]
      simp
    · by_cases hcn : c = nlChar
      · rw [hcn, csvRecords_cons_nl,
          ih [] [] hqr (by intro d hd; exact absurd hd (List.not_mem_nil d)),
          splitChars_cons_sep nlChar rest []]
        simp only [List.headD_cons, List.tail_cons, List.reverse_nil, List.nil_append,
          toList_mk, List.append_nil]
        rw [splitChars_no_sep commaChar field.reverse [] hfr,
          splitChars_acc nlChar rest []]
        simp [toList_mk, mk_toList]
      · rw [csvRecords_cons_other c rest field row hcq hcc hcn,
          ih (c :: field) row hqr (by
            intro d hd
            rcases List.mem_cons.mp hd with h | h
            · rw [h]
              exact ⟨hcc, hcn⟩
            · exact hf d h),
          splitChars_cons_ne nlChar c rest [] hcn,
          splitChars_acc nlChar rest [c]]
        simp [toList_mk, List.append_assoc]

/-- The records of a quote-free CSV text are its non-blank lines, each split
at the commas. -/
theorem csvRecordsOf_unquoted (s : String) (hq : ∀ c ∈ s.toList, c ≠ quoteChar) :
    csvRecordsOf s =
      ((splitOnChar nlChar s).filter (fun line => line ≠ "")).map
        (fun line => splitOnChar commaChar line) := by
  unfold csvRecordsOf splitOnChar
  rw [csvRecords_unquoted s.toList [] [] hq
    (by intro d hd; exact absurd hd (List.not_mem_nil d))]
  simp only [List.reverse_nil, List.nil_append]
  have hlines : splitChars nlChar s.toList [] =
      ((splitChars nlChar s.toList []).headD "") :: (splitChars nlChar s.toList []).tail := by
    conv_lhs => rw [splitChars_acc nlChar s.toList []]
    simp [mk_toList]
  conv_rhs => rw [hlines]
  rw [show splitChars commaChar ((splitChars nlChar s.toList []).headD "").toList [] ::
        ((splitChars nlChar s.toList []).tail.map (fun l => splitChars commaChar l.toList [])) =
      (((splitChars nlChar s.toList []).headD "") :: (splitChars nlChar s.toList []).tail).map
        (fun line => splitChars commaChar line.toList []) from by simp]
  rw [List.filter_map]
  congr 1
  apply List.filter_congr
  intro line hline
  by_cases hl : line = ""
  · rw [hl]
    decide
  · have hne : splitChars commaChar line.data [] ≠ [""] := by
      apply splitChars_ne_single_empty
      intro h0
      exact hl (String.ext h0)
    simp [Function.comp, hne, hl]

/-- C7: the profile of a parsed frame has shape (data row count, column
count) with the header consumed into the column names, a columns list whose
length is the column count, per-column non-null counts bounded by the row
count, per-column type labels, a describe table keyed by the columns whose
inapplicable entries present in the union index are rendered as the empty
string, and a head preview of at most the first 5 rows, each a column-keyed
record; on quote-free text the records are the non-blank lines so the row
count is the line count minus the header line. -/
theorem analyze_csv_profile (df : DataFrame) (s : String) (j m : Nat) (st : String)
    (hj : j < df.columns.length)
    (hst : st ∈ statIndex df)
    (hmiss : statFor (colCells df j) st = none)
    (hm : m < (summarize df).head.length)
    (hq : ∀ c ∈ s.toList, c ≠ quoteChar)
    (hs : (splitOnChar nlChar s).filter (fun line => line ≠ "") ≠ []) :
    (summarize df).shape = (df.rows.length, df.columns.length) ∧
    (summarize df).columns.length = (summarize df).shape.2 ∧
    (summarize df).non_null_counts.map Prod.fst = df.columns ∧
    ((summarize df).non_null_counts.getD j ("", 0)).2 =
      ((colCells df j).filter (fun c => c.isSome)).length ∧
    ((summarize df).non_null_counts.getD j ("", 0)).2 ≤ df.rows.length ∧
    (summarize df).dtypes.map Prod.fst = df.columns ∧
    ((summarize df).dtypes.getD j ("", "")).2 = inferDtype (colCells df j) ∧
    (summarize df).describe.map Prod.fst = df.columns ∧
    ((summarize df).describe.getD j ("", [])).2.lookup st = some (DVal.str "") ∧
    (summarize df).head.length = min 5 df.rows.length ∧
    (summarize df).head.length ≤ 5 ∧
    ((summarize df).head.getD m []).map Prod.fst = df.columns ∧
    csvRecordsOf s =
      ((splitOnChar nlChar s).filter (fun line => line ≠ "")).map
        (fun line => splitOnChar commaChar line) ∧
    (summarize (read_csv s)).shape.1 =
      ((splitOnChar nlChar s).filter (fun line => line ≠ "")).length - 1 ∧
    (summarize (read_csv s)).shape.2 =
      (splitOnChar commaChar
        (((splitOnChar nlChar s).filter (fun line => line ≠ "")).headD "")).length := by
  have hnn : (summarize df).non_null_counts.getD j ("", 0) =
      (df.columns.getD j "", ((colCells df j).filter (fun c => c.isSome)).length) := by
    exact getD_enum_map df.columns
      (fun jc : Nat × String =>
        (jc.2, ((colCells df jc.1).filter (fun c : Cell => c.isSome)).length)) j ("", 0) hj
  have hdt : (summarize df).dtypes.getD j ("", "") =
      (df.columns.getD j "", inferDtype (colCells df j)) := by
    exact getD_enum_map df.columns
      (fun jc : Nat × String => (jc.2, inferDtype (colCells df jc.1))) j ("", "") hj
  have hdesc : (summarize df).describe.getD j ("", []) =
      (df.columns.getD j "",
        (statIndex df).map
          (fun st2 => (st2, (statFor (colCells df j) st2).getD (DVal.str "")))) := by
    exact getD_enum_map df.columns
      (fun jc : Nat × String => (jc.2, (statIndex df).map
        (fun st2 => (st2, (statFor (colCells df jc.1) st2).getD (DVal.str ""))))) j ("", []) hj
  have hm2 : m < (df.rows.take 5).length := by
    have h0 := hm
    rw [show (summarize df).head =
      (df.rows.take 5).map (fun r => df.columns.enum.map (fun jc => (jc.2, r.getD jc.1 none)))
      from rfl, List.length_map] at h0
    exact h0
  have hhead : (summarize df).head.getD m [] =
      df.columns.enum.map (fun jc => (jc.2, ((df.rows.take 5).getD m []).getD jc.1 none)) := by
    rw [show (summarize df).head =
      (df.rows.take 5).map (fun r => df.columns.enum.map (fun jc => (jc.2, r.getD jc.1 none)))
      from rfl]
    rw [List.getD_eq_getElem?_getD, List.getElem?_map, List.getElem?_eq_getElem hm2]
    rw [List.getD_eq_getElem?_getD, List.getElem?_eq_getElem hm2]
    rfl
  have hrec := csvRecordsOf_unquoted s hq
  obtain ⟨hd, tl, hcons⟩ := List.exists_cons_of_ne_nil hs
  have hrc : csvRecordsOf s =
      splitOnChar commaChar hd :: tl.map (fun line => splitOnChar commaChar line) := by
    rw [hrec, hcons, List.map_cons]
  have hr : read_csv s = ⟨splitOnChar commaChar hd,
      (tl.map (fun line => splitOnChar commaChar line)).map (fun r => r.map
        (fun field => if field ∈ NA_VALUES then none else some field))⟩ := by
    unfold read_csv
    rw [hrc]
  refine ⟨rfl, rfl, map_fst_pair_enum _ _, by rw [hnn], ?_, map_fst_pair_enum _ _,
    by rw [hdt], map_fst_pair_enum _ _, ?_, ?_, ?_, ?_, hrec, ?_, ?_⟩
  · rw [hnn]
    calc ((colCells df j).filter (fun c => c.isSome)).length
        ≤ (colCells df j).length := List.length_filter_le _ _
      _ = df.rows.length := by rw [colCells, List.length_map]
  · rw [hdesc]
    rw [lookup_map_keys
      (fun st2 => (statFor (colCells df j) st2).getD (DVal.str "")) (statIndex df) st hst]
    rw [hmiss]
    rfl
  · show ((df.rows.take 5).map _).length = min 5 df.rows.length
    rw [List.length_map, List.length_take]
  · show ((df.rows.take 5).map _).length ≤ 5
    rw [List.length_map, List.length_take]
    exact min_le_left _ _
  · rw [hhead]
    exact map_fst_pair_enum _ _
  · have h1 : (summarize (read_csv s)).shape.1 = (read_csv s).rows.length := rfl
    rw [h1, hr, hcons]
    simp
  · have h2 : (summarize (read_csv s)).shape.2 = (read_csv s).columns.length := rfl
    rw [h2, hr, hcons]
    simp

/-- C7 witness: the profile of a concrete mixed frame with an object and an
integer column, probing the numeric column, the there-inapplicable unique
statistic, and head row 0; plus a concrete quote-free text for the parse
facts. -/
theorem analyze_csv_profile_witness :
    (summarize (read_csv "a,b\nx,1\ny,2")).shape =
      ((read_csv "a,b\nx,1\ny,2").rows.length, (read_csv "a,b\nx,1\ny,2").columns.length) ∧
    (summarize (read_csv "a,b\nx,1\ny,2")).columns.length =
      (summarize (read_csv "a,b\nx,1\ny,2")).shape.2 ∧
    (summarize (read_csv "a,b\nx,1\ny,2")).non_null_counts.map Prod.fst =
      (read_csv "a,b\nx,1\ny,2").columns ∧
    ((summarize (read_csv "a,b\nx,1\ny,2")).non_null_counts.getD 1 ("", 0)).2 =
      ((colCells (read_csv "a,b\nx,1\ny,2") 1).filter (fun c => c.isSome)).length ∧
    ((summarize (read_csv "a,b\nx,1\ny,2")).non_null_counts.getD 1 ("", 0)).2 ≤
      (read_csv "a,b\nx,1\ny,2").rows.length ∧
    (summarize (read_csv "a,b\nx,1\ny,2")).dtypes.map Prod.fst =
      (read_csv "a,b\nx,1\ny,2").columns ∧
    ((summarize (read_csv "a,b\nx,1\ny,2")).dtypes.getD 1 ("", "")).2 =
      inferDtype (colCells (read_csv "a,b\nx,1\ny,2") 1) ∧
    (summarize (read_csv "a,b\nx,1\ny,2")).describe.map Prod.fst =
      (read_csv "a,b\nx,1\ny,2").columns ∧
    ((summarize (read_csv "a,b\nx,1\ny,2")).describe.getD 1 ("", [])).2.lookup "unique" =
      some (DVal.str "") ∧
    (summarize (read_csv "a,b\nx,1\ny,2")).head.length =
      min 5 (read_csv "a,b\nx,1\ny,2").rows.length ∧
    (summarize (read_csv "a,b\nx,1\ny,2")).head.length ≤ 5 ∧
    ((summarize (read_csv "a,b\nx,1\ny,2")).head.getD 0 []).map Prod.fst =
      (read_csv "a,b\nx,1\ny,2").columns ∧
    csvRecordsOf "a,b\n1,2" =
      ((splitOnChar nlChar "a,b\n1,2").filter (fun line => line ≠ "")).map
        (fun line => splitOnChar commaChar line) ∧
    (summarize (read_csv "a,b\n1,2")).shape.1 =
      ((splitOnChar nlChar "a,b\n1,2").filter (fun line => line ≠ "")).length - 1 ∧
    (summarize (read_csv "a,b\n1,2")).shape.2 =
      (splitOnChar commaChar
        (((splitOnChar nlChar "a,b\n1,2").filter (fun line => line ≠ "")).headD "")).length :=
  analyze_csv_profile (read_csv "a,b\nx,1\ny,2") "a,b\n1,2" 1 0 "unique"
    (by decide) (by decide) (by decide) (by decide) (by decide) (by decide)

end FlowAgent
